import Mathlib

/-!
Verification development for the deep-research agent repository.

The development embeds, as executable Lean definitions, the two source files

* `src/deep_research_node/PromptManager.py` — the versioned prompt-template
  store (`PromptTemplate`, `PromptManager`, content fingerprinting, version
  resolution, rendering, changelog), and
* `src/deep_research_node/app.py` — the research-agent node functions
  (`should_continue`, `tool_node`, `compress_research`, `assess_quality`),

and proves the specified properties about them.  Python `ValueError` /
`KeyError` exceptions are modelled by an explicit error type; Python `dict`
objects by association lists; external collaborators (the chat models, the
tool implementations, the clock) by function parameters.  Message and state
types that live in modules outside the provided sources are modelled from
the specification and marked as such.
-/

namespace DeepResearch

/- ===== SHA-256 (the digest used by `hashlib.sha256(...).hexdigest()`) ===== -/

/-- Modulus of 32-bit arithmetic, 2^32. -/
def M32 : Nat := 4294967296

/-- Rotation of a 32-bit word to the right by n bits, over Nat. -/
def rotr (n x : Nat) : Nat := ((x >>> n) ||| (x <<< (32 - n))) % M32

/-- SHA-256 choice function. -/
def ch (e f g : Nat) : Nat := (e &&& f) ^^^ ((e ^^^ 4294967295) &&& g)

/-- SHA-256 majority function. -/
def maj (a b c : Nat) : Nat := (a &&& b) ^^^ (a &&& c) ^^^ (b &&& c)

/-- SHA-256 big sigma 0. -/
def bigSigma0 (a : Nat) : Nat := rotr 2 a ^^^ rotr 13 a ^^^ rotr 22 a

/-- SHA-256 big sigma 1. -/
def bigSigma1 (e : Nat) : Nat := rotr 6 e ^^^ rotr 11 e ^^^ rotr 25 e

/-- SHA-256 small sigma 0. -/
def smallSigma0 (x : Nat) : Nat := rotr 7 x ^^^ rotr 18 x ^^^ (x >>> 3)

/-- SHA-256 small sigma 1. -/
def smallSigma1 (x : Nat) : Nat := rotr 17 x ^^^ rotr 19 x ^^^ (x >>> 10)

/-- Round constant table of the SHA-256 compression function (FIPS 180-4),
written in decimal. -/
def sha256K : List Nat :=
  [1116352408, 1899447441, 3049323471, 3921009573,
   961987163, 1508970993, 2453635748, 2870763221,
   3624381080, 310598401, 607225278, 1426881987,
   1925078388, 2162078206, 2614888103, 3248222580,
   3835390401, 4022224774, 264347078, 604807628,
   770255983, 1249150122, 1555081692, 1996064986,
   2554220882, 2821834349, 2952996808, 3210313671,
   3336571891, 3584528711, 113926993, 338241895,
   666307205, 773529912, 1294757372, 1396182291,
   1695183700, 1986661051, 2177026350, 2456956037,
   2730485921, 2820302411, 3259730800, 3345764771,
   3516065817, 3600352804, 4094571909, 275423344,
   430227734, 506948616, 659060556, 883997877,
   958139571, 1322822218, 1537002063, 1747873779,
   1955562222, 2024104815, 2227730452, 2361852424,
   2428436474, 2756734187, 3204031479, 3329325298]

/-- Working state of the SHA-256 compression function: eight 32-bit words. -/
structure Hash8 where
  a : Nat
  b : Nat
  c : Nat
  d : Nat
  e : Nat
  f : Nat
  g : Nat
  h : Nat

/-- Initial hash state of SHA-256 (FIPS 180-4), written in decimal. -/
def sha256H0 : Hash8 :=
  ⟨1779033703, 3144134277, 1013904242, 2773480762,
   1359893119, 2600822924, 528734635, 1541459225⟩

/-- Extend 16 message words to the 64-word message schedule. -/
def msgSchedule (w0 : Array Nat) : Array Nat :=
  (List.range 48).foldl
    (fun w i =>
      w.push ((smallSigma1 (w.getD (i + 14) 0) + w.getD (i + 9) 0 +
               smallSigma0 (w.getD (i + 1) 0) + w.getD i 0) % M32))
    w0

/-- One round of the SHA-256 compression function. -/
def sha256Round (s : Hash8) (kw : Nat × Nat) : Hash8 :=
  let t1 := (s.h + bigSigma1 s.e + ch s.e s.f s.g + kw.1 + kw.2) % M32
  let t2 := (bigSigma0 s.a + maj s.a s.b s.c) % M32
  ⟨(t1 + t2) % M32, s.a, s.b, s.c, (s.d + t1) % M32, s.e, s.f, s.g⟩

/-- Process one 16-word block, updating the hash state. -/
def processBlock (s : Hash8) (block : List Nat) : Hash8 :=
  let w := msgSchedule (List.toArray block)
  let r := (sha256K.zip w.toList).foldl sha256Round s
  ⟨(s.a + r.a) % M32, (s.b + r.b) % M32, (s.c + r.c) % M32, (s.d + r.d) % M32,
   (s.e + r.e) % M32, (s.f + r.f) % M32, (s.g + r.g) % M32, (s.h + r.h) % M32⟩

/-- Split a byte list into 64-byte chunks. -/
def chunks64 : List Nat → List (List Nat)
  | [] => []
  | x :: xs => ((x :: xs).take 64) :: chunks64 ((x :: xs).drop 64)
termination_by l => l.length
decreasing_by simp [List.length_drop]; omega

/-- Split a byte list into 4-byte chunks. -/
def chunks4 : List Nat → List (List Nat)
  | [] => []
  | x :: xs => ((x :: xs).take 4) :: chunks4 ((x :: xs).drop 4)
termination_by l => l.length
decreasing_by simp [List.length_drop]; omega

/-- Big-endian word value of a byte list. -/
def beWord (bl : List Nat) : Nat := bl.foldl (fun acc b => acc * 256 + b) 0

/-- The 8 big-endian bytes of the 64-bit message bit length. -/
def lenBytes (n : Nat) : List Nat :=
  [(n >>> 56) % 256, (n >>> 48) % 256, (n >>> 40) % 256, (n >>> 32) % 256,
   (n >>> 24) % 256, (n >>> 16) % 256, (n >>> 8) % 256, n % 256]

/-- SHA-256 padding: append `0x80`, zero bytes up to 56 mod 64, then the bit length. -/
def sha256Pad (msg : List Nat) : List Nat :=
  msg ++ 0x80 :: (List.replicate ((119 - msg.length % 64) % 64) 0 ++ lenBytes (8 * msg.length))

/-- The 4 big-endian bytes of a 32-bit word. -/
def wordBytes (w : Nat) : List Nat :=
  [(w >>> 24) % 256, (w >>> 16) % 256, (w >>> 8) % 256, w % 256]

/-- SHA-256 digest of a byte string: 32 bytes.  Checked against the standard
test vectors (empty string, "abc", the 56-byte NIST vector). -/
def sha256 (msg : List Nat) : List Nat :=
  let blocks := chunks64 (sha256Pad msg)
  let s := blocks.foldl (fun s b => processBlock s ((chunks4 b).map beWord)) sha256H0
  [s.a, s.b, s.c, s.d, s.e, s.f, s.g, s.h].flatMap wordBytes

/-- Lowercase hex character of a digit below 16. -/
def hexChar (d : Nat) : Char := if d < 10 then Char.ofNat (48 + d) else Char.ofNat (87 + d)

/-- Lowercase hex rendering of a byte list, two characters per byte
(Python `.hexdigest()`). -/
def hexdigest (bytes : List Nat) : String :=
  String.mk (bytes.flatMap (fun b => [hexChar (b / 16), hexChar (b % 16)]))

/-- UTF-8 encoding of a character, as a list of byte values. -/
def utf8EncodeChar (c : Char) : List Nat :=
  let n := c.toNat
  if n < 128 then [n]
  else if n < 2048 then [192 ||| (n >>> 6), 128 ||| (n &&& 63)]
  else if n < 65536 then [224 ||| (n >>> 12), 128 ||| ((n >>> 6) &&& 63), 128 ||| (n &&& 63)]
  else [240 ||| (n >>> 18), 128 ||| ((n >>> 12) &&& 63), 128 ||| ((n >>> 6) &&& 63), 128 ||| (n &&& 63)]

/-- UTF-8 encoding of a string (Python `str.encode()`). -/
def utf8Encode (s : String) : List Nat := s.data.flatMap utf8EncodeChar

/-- Content fingerprint computed at template load, from
`PromptManager._load_prompt_file`:
`content_hash = hashlib.sha256(content.encode()).hexdigest()[:12]`.
Checked against CPython on concrete inputs, including non-ASCII ones. -/
def contentFingerprint (content : String) : String :=
  (hexdigest (sha256 (utf8Encode content))).take 12

/-- Hex digits (high then low nibble) of every byte of a byte list, in
order; `hexdigest` renders exactly these digits. -/
def byteDigits (bytes : List Nat) : List Nat :=
  bytes.flatMap (fun v => [v / 16, v % 16])

/-- Value of a digit list in base 16, least significant digit first (used to
embed bounded digit lists into a finite type). -/
def valLE : List Nat → Nat
  | [] => 0
  | d :: ds => d + 16 * valLE ds

/- ===== Errors raised by the embedded Python code ===== -/

/-- Exceptions raised by the embedded code.  Each `ValueError` message shape of
`PromptManager.get_prompt` / `list_versions` / `get_changelog` gets one
constructor; `keyError` is the `KeyError` raised by `str.format` on a missing
named field, and `formatValueError` the `ValueError` raised by `str.format`
on a malformed (unmatched-brace) template. -/
inductive AppError where
  | promptNotFound (name : String)
  | noVersionsFound (name : String)
  | versionNotFound (version : String) (name : String)
  | keyError (fieldName : String)
  | formatValueError
deriving DecidableEq

/- ===== Python `str.format` (named-placeholder subset) ===== -/

/-- Opening brace character. -/
def braceOpen : Char := Char.ofNat 123

/-- Closing brace character. -/
def braceClose : Char := Char.ofNat 125

/-- Mode of the `str.format` scanner: literal text, inside a replacement
field (name characters accumulated in reverse), or just after an unpaired
closing brace. -/
inductive ScanMode where
  | literal
  | field (acc : List Char)
  | closing
deriving DecidableEq

/-- Python `str.format` scanner, restricted to the named-placeholder form
`{name}` used by the prompt bodies (plus the `{{` / `}}` escapes).  A named
field is substituted with its value from `vars`; a field with no supplied
value raises `KeyError`; an unmatched or nested brace raises `ValueError`. -/
def scanFormat (vars : List (String × String)) :
    ScanMode → List Char → Except AppError (List Char)
  | .literal, [] => .ok []
  | .field _, [] => .error .formatValueError
  | .closing, [] => .error .formatValueError
  | .literal, c :: rest =>
    if c = braceOpen then scanFormat vars (.field []) rest
    else if c = braceClose then scanFormat vars .closing rest
    else (fun out => c :: out) <$> scanFormat vars .literal rest
  | .field acc, c :: rest =>
    if c = braceOpen then
      if acc = [] then (fun out => braceOpen :: out) <$> scanFormat vars .literal rest
      else .error .formatValueError
    else if c = braceClose then
      match vars.lookup (String.mk acc.reverse) with
      | none => .error (.keyError (String.mk acc.reverse))
      | some v => (fun out => v.data ++ out) <$> scanFormat vars .literal rest
    else scanFormat vars (.field (c :: acc)) rest
  | .closing, c :: rest =>
    if c = braceClose then (fun out => braceClose :: out) <$> scanFormat vars .literal rest
    else .error .formatValueError

/-- Python `template.format(**kwargs)` on a character list, starting in
literal mode. -/
def formatChars (vars : List (String × String)) (l : List Char) :
    Except AppError (List Char) :=
  scanFormat vars .literal l

/-- The placeholder names of a template body, in scan order (`none` when the
body is malformed for `str.format`).  Mirrors the scan of `scanFormat`. -/
def scanPlaceholders : ScanMode → List Char → Option (List String)
  | .literal, [] => some []
  | .field _, [] => none
  | .closing, [] => none
  | .literal, c :: rest =>
    if c = braceOpen then scanPlaceholders (.field []) rest
    else if c = braceClose then scanPlaceholders .closing rest
    else scanPlaceholders .literal rest
  | .field acc, c :: rest =>
    if c = braceOpen then
      if acc = [] then scanPlaceholders .literal rest
      else none
    else if c = braceClose then
      (fun ps => String.mk acc.reverse :: ps) <$> scanPlaceholders .literal rest
    else scanPlaceholders (.field (c :: acc)) rest
  | .closing, c :: rest =>
    if c = braceClose then scanPlaceholders .literal rest
    else none

/-- Placeholder names of a template body given as a character list. -/
def placeholdersChars (l : List Char) : Option (List String) :=
  scanPlaceholders .literal l

/-- Python `template.format(**kwargs)` on a string. -/
def pyFormat (template : String) (vars : List (String × String)) : Except AppError String :=
  (formatChars vars template.data).map String.mk

/-- Placeholder names of a template string. -/
def placeholders (template : String) : Option (List String) :=
  placeholdersChars template.data

/- ===== PromptTemplate and PromptManager ===== -/

/-- The `PromptTemplate` dataclass of `PromptManager.py`. -/
structure PromptTemplate where
  name : String
  version : String
  template : String
  author : String
  date : String
  changes : String
  tags : List String
  model_hints : List (String × String)
  content_hash : String
  file_path : String
deriving DecidableEq

/-- Method `PromptTemplate.render`: `self.template.format(**kwargs)`. -/
def PromptTemplate.render (t : PromptTemplate) (vars : List (String × String)) :
    Except AppError String :=
  pyFormat t.template vars

/-- The frontmatter metadata header of a prompt asset, as consumed by
`_load_prompt_file` (each field is optional there, with a default). -/
structure PromptMeta where
  author : Option String
  date : Option String
  changes : Option String
  tags : Option (List String)
  model_hints : Option (List (String × String))

/-- Method `PromptManager._load_prompt_file`, given the already-parsed
frontmatter (frontmatter parsing is an external collaborator): strips the
body, computes the content fingerprint of the stripped body, and builds the
`PromptTemplate` with metadata defaults.  Python `str.strip()` is modelled by
`String.trim`. -/
def loadPromptFile (name version : String) (meta : PromptMeta) (rawContent : String)
    (filePath : String) : PromptTemplate :=
  let content := rawContent.trim
  { name := name
    version := version
    template := content
    author := meta.author.getD "unknown"
    date := meta.date.getD "unknown"
    changes := meta.changes.getD ""
    tags := meta.tags.getD []
    model_hints := meta.model_hints.getD []
    content_hash := contentFingerprint content
    file_path := filePath }

/-- One entry of the manifest `prompts` mapping: the optionally declared
latest version for a prompt name. -/
structure ManifestEntry where
  latest : Option String
deriving DecidableEq

/-- The `PromptManager` state: `self.cache` (prompt name → version →
template, a Python dict of dicts, modelled as association lists) and the
`prompts` section of `self.manifest`. -/
structure PromptManager where
  cache : List (String × List (String × PromptTemplate))
  manifestPrompts : List (String × ManifestEntry)

/-- Expression `self.manifest.get("prompts", {}).get(name, {}).get("latest", None)`. -/
def manifestLatest (pm : PromptManager) (name : String) : Option String :=
  match pm.manifestPrompts.lookup name with
  | some entry => entry.latest
  | none => none

/-- Python truthiness test `not version` for an `Optional[str]`:
true for `None` and for the empty string. -/
def pyFalsy : Option String → Bool
  | none => true
  | some s => s.isEmpty

/-- Python `sorted` on a list of strings (lexicographic by code point). -/
def pySorted (l : List String) : List String := List.insertionSort (· ≤ ·) l

/-- Method `PromptManager.get_prompt(name, version=None)`:

* unknown `name` → `ValueError` (prompt not found);
* `version` `None` or `"latest"` → consult the manifest declared latest; when
  the declared latest is missing (or falsy), fall back to the lexicographically
  greatest loaded version (`sorted(versions)[-1]`), raising when no versions
  are loaded;
* finally a lookup of the resolved version in the cache, raising `ValueError`
  (version not found) on a miss. -/
def getPrompt (pm : PromptManager) (name : String) (version : Option String) :
    Except AppError PromptTemplate :=
  match pm.cache.lookup name with
  | none => .error (.promptNotFound name)
  | some versionsMap =>
    let resolved : Except AppError String :=
      if version = none ∨ version = some "latest" then
        let declared := manifestLatest pm name
        if pyFalsy declared then
          let versions := versionsMap.map Prod.fst
          if versions.isEmpty then .error (.noVersionsFound name)
          else .ok ((pySorted versions).getLastD "")
        else .ok (declared.getD "")
      else .ok (version.getD "")
    match resolved with
    | .error e => .error e
    | .ok v =>
      match versionsMap.lookup v with
      | none => .error (.versionNotFound v name)
      | some t => .ok t

/-- Method `PromptManager.list_versions`: sorted version keys, `ValueError`
on an unknown name. -/
def listVersions (pm : PromptManager) (name : String) : Except AppError (List String) :=
  match pm.cache.lookup name with
  | none => .error (.promptNotFound name)
  | some versionsMap => .ok (pySorted (versionsMap.map Prod.fst))

/-- Method `PromptManager.get_changelog`: per version the stored
date/author/changes triple, `ValueError` on an unknown name. -/
def getChangelog (pm : PromptManager) (name : String) :
    Except AppError (List (String × (String × String × String))) :=
  match pm.cache.lookup name with
  | none => .error (.promptNotFound name)
  | some versionsMap =>
    .ok (versionsMap.map (fun p => (p.1, (p.2.date, p.2.author, p.2.changes))))

/- ===== Agent data model ===== -/

/-- One pending tool-call request carried by an assistant turn.
Modelled from the spec: a tool-call request has a tool name, structured
arguments (kept abstract as a string payload) and a stable request
identifier; the concrete class lives in the external langchain library. -/
structure ToolCall where
  name : String
  args : String
  id : String
deriving DecidableEq

/-- One conversation turn.
Modelled from the spec: turns are tagged with a role (system, human,
assistant, tool-result); assistant turns carry zero or more pending tool-call
requests; tool-result turns carry the tool name and the request identifier
they answer.  The concrete message classes (`SystemMessage`, `HumanMessage`,
`AIMessage`, `ToolMessage`) live in the external langchain library. -/
inductive Message where
  | system (content : String)
  | human (content : String)
  | ai (content : String) (tool_calls : List ToolCall)
  | tool (content : String) (name : String) (tool_call_id : String)
deriving DecidableEq

/-- Textual content of a turn. -/
def Message.content : Message → String
  | .system c => c
  | .human c => c
  | .ai c _ => c
  | .tool c _ _ => c

/-- The langchain type tag of a turn, as used by `filter_messages`. -/
def Message.msgType : Message → String
  | .system _ => "system"
  | .human _ => "human"
  | .ai _ _ => "ai"
  | .tool _ _ _ => "tool"

/-- Research state.
Modelled from the spec: the `ResearcherState` schema imported from the
`state_research` module (absent from the provided sources); its fields are
those used by `app.py` and by the initial state of the entry point. -/
structure ResearcherState where
  researcher_messages : List Message
  tool_call_iterations : Nat
  research_topic : String
  compressed_research : String
  raw_notes : List String
  qa_report : String
deriving DecidableEq

/-- Function `filter_messages(msgs, include_types=...)`.
Modelled from the spec: keeps, in order, the turns whose type tag is among
`include_types`; the concrete helper lives in the external langchain
library. -/
def filter_messages (msgs : List Message) (include_types : List String) : List Message :=
  msgs.filter (fun m => include_types.contains m.msgType)

/- ===== Agent node functions (app.py) ===== -/

/-- Routing function `should_continue` of `app.py`: reads the last message
and returns the name of the next node, `"tool_node"` when that message
carries tool calls, `"compress_research"` otherwise.  `none` models the
Python exception raised when the conversation is empty or the last message
has no `tool_calls` attribute (only assistant messages carry one). -/
def should_continue (state : ResearcherState) : Option String :=
  match state.researcher_messages.getLast? with
  | some (.ai _ tool_calls) =>
    some (if tool_calls.isEmpty then "compress_research" else "tool_node")
  | _ => none

/-- Node function `tool_node` of `app.py`, parameterised by the registry
`tools_by_name` (the concrete tool implementations live in the external
`utils` module): executes every tool call of the last message in order,
then zips observations with the calls to build one `ToolMessage` per call.
`none` models the Python exception raised when the last message is not an
assistant turn or a tool name is not registered (`KeyError`). -/
def tool_node (toolsByName : List (String × (String → String)))
    (state : ResearcherState) : Option (List Message) :=
  match state.researcher_messages.getLast? with
  | some (.ai _ tool_calls) =>
    match tool_calls.mapM (fun tc => (toolsByName.lookup tc.name).map (fun f => f tc.args)) with
    | none => none
    | some observations =>
      some ((observations.zip tool_calls).map (fun p => .tool p.1 p.2.name p.2.id))
  | _ => none

/-- Node function `compress_research` of `app.py`, parameterised by the
store, the current date string (`get_today_str` lives in the external
`utils` module) and the compression model.  Resolves and renders the two
compression prompts, invokes the model over system prompt + conversation +
human prompt, and independently joins the contents of the tool and ai turns
with newlines into the single raw-notes entry.  Returns the
`(compressed_research, raw_notes)` update. -/
def compress_research (pm : PromptManager) (today : String)
    (compressModel : List Message → String) (state : ResearcherState) :
    Except AppError (String × List String) := do
  let sysTemplate ← getPrompt pm "compress_research_prompt_system" (some "v1.0.0")
  let system_message ← sysTemplate.render [("date", today)]
  let userTemplate ← getPrompt pm "compress_research_prompt_user" (some "v1.0.0")
  let human_message ← userTemplate.render [("research_topic", state.research_topic)]
  let messages :=
    [Message.system system_message] ++ state.researcher_messages ++ [Message.human human_message]
  let response := compressModel messages
  let raw_notes := (filter_messages state.researcher_messages ["tool", "ai"]).map Message.content
  pure (response, [String.intercalate "\n" raw_notes])

/-- The model input built by node function `assess_quality` of `app.py`:
the QA prompt resolved from the store, rendered with the compressed research
text, wrapped as a single human message. -/
def assessInput (pm : PromptManager) (state : ResearcherState) :
    Except AppError (List Message) := do
  let tmpl ← getPrompt pm "geologic_qa_prompt_user" (some "v1.0.0")
  let qa_prompt_content ← tmpl.render [("research_report", state.compressed_research)]
  pure [Message.human qa_prompt_content]

/-- Node function `assess_quality` of `app.py`, parameterised by the QA
model: invokes the model on the built input and returns the `qa_report`
update. -/
def assess_quality (pm : PromptManager) (qaModel : List Message → String)
    (state : ResearcherState) : Except AppError String := do
  let msgs ← assessInput pm state
  pure (qaModel msgs)

/-- Specification-level raw-notes aggregation, following the words of the
spec: the concatenation of the textual content of every assistant-role and
tool-result-role turn, in original order, joined by single newlines. -/
def isEvidenceTurn : Message → Bool
  | .ai _ _ => true
  | .tool _ _ _ => true
  | _ => false

/-- Raw-notes text as the spec describes it, by direct recursion. -/
def rawNotesSpec : List Message → String
  | [] => ""
  | m :: ms =>
    if isEvidenceTurn m then
      if ms.any isEvidenceTurn then m.content ++ "\n" ++ rawNotesSpec ms
      else m.content
    else rawNotesSpec ms

/- ===== Concrete example values used by the witnesses ===== -/

/-- Example template, version v1 of prompt "greeting". -/
def tmplGreetV1 : PromptTemplate :=
  ⟨"greeting", "v1", "Hi {name}", "ada", "2024-01-01", "", [], [], "h1", "greeting/v1.md"⟩

/-- Example template, version v2 of prompt "greeting". -/
def tmplGreetV2 : PromptTemplate :=
  ⟨"greeting", "v2", "Hello {name}, welcome", "ada", "2024-02-01", "two", [], [], "h2", "greeting/v2.md"⟩

/-- Example store: two versions of "greeting", manifest declaring v2 latest. -/
def storeEx : PromptManager :=
  ⟨[("greeting", [("v1", tmplGreetV1), ("v2", tmplGreetV2)])], [("greeting", ⟨some "v2"⟩)]⟩

/-- Example store with no declared latest version for "greeting". -/
def storeNoLatest : PromptManager :=
  ⟨[("greeting", [("v1", tmplGreetV1), ("v2", tmplGreetV2)])], [("greeting", ⟨none⟩)]⟩

/-- Example store whose manifest declares a latest version (v3) that was
never loaded, while v1 is loaded. -/
def storeMissingLatest : PromptManager :=
  ⟨[("greeting", [("v1", tmplGreetV1)])], [("greeting", ⟨some "v3"⟩)]⟩

/-- Example QA prompt template. -/
def tmplQA : PromptTemplate :=
  ⟨"geologic_qa_prompt_user", "v1.0.0", "Audit this report: {research_report}",
   "ada", "2024-03-01", "", [], [], "h3", "geologic_qa_prompt_user/v1.0.0.md"⟩

/-- Example compression prompt templates and store for the compression and
assessment nodes. -/
def tmplCompressSys : PromptTemplate :=
  ⟨"compress_research_prompt_system", "v1.0.0", "Compress as of {date}.",
   "ada", "2024-03-01", "", [], [], "h4", "compress_research_prompt_system/v1.0.0.md"⟩

/-- Example compression user prompt template. -/
def tmplCompressUser : PromptTemplate :=
  ⟨"compress_research_prompt_user", "v1.0.0", "Topic: {research_topic}",
   "ada", "2024-03-01", "", [], [], "h5", "compress_research_prompt_user/v1.0.0.md"⟩

/-- Example store holding the compression and QA prompts used by the agent
nodes. -/
def storeAgent : PromptManager :=
  ⟨[("compress_research_prompt_system", [("v1.0.0", tmplCompressSys)]),
    ("compress_research_prompt_user", [("v1.0.0", tmplCompressUser)]),
    ("geologic_qa_prompt_user", [("v1.0.0", tmplQA)])],
   [("compress_research_prompt_system", ⟨some "v1.0.0"⟩),
    ("compress_research_prompt_user", ⟨some "v1.0.0"⟩),
    ("geologic_qa_prompt_user", ⟨some "v1.0.0"⟩)]⟩

/-- Example researcher state used by witnesses: assistant turn "A",
tool-result turn "T1", assistant turn "B", no pending calls at the end. -/
def stateABEx : ResearcherState :=
  ⟨[Message.human "question", Message.ai "A" [⟨"think_tool", "x", "call1"⟩],
    Message.tool "T1" "think_tool" "call1", Message.ai "B" []],
   2, "the topic", "", [], ""⟩

/-- Example tool registry for the tool-execution witness. -/
def toolRegistryEx : List (String × (String → String)) :=
  [("tavily_search", fun q => String.append "results for " q),
   ("think_tool", fun r => String.append "reflection recorded: " r)]

/-- Example state whose last assistant turn carries two pending tool calls. -/
def stateToolsEx : ResearcherState :=
  ⟨[Message.human "question",
    Message.ai "let me search" [⟨"tavily_search", "solar", "id1"⟩, ⟨"think_tool", "hmm", "id2"⟩]],
   1, "the topic", "", [], ""⟩

/- ===== Theorems ===== -/

/-- C1: for every researcher state whose last message is an assistant turn,
`should_continue` returns "compress_research" exactly when that turn carries
zero pending tool calls and "tool_node" exactly when it carries one or more;
and the branch depends only on the presence or absence of pending tool
calls, not on their content or on the iteration counter. -/
theorem C1_should_continue_routing (s : ResearcherState) (c : String)
    (tcs : List ToolCall)
    (h : s.researcher_messages.getLast? = some (.ai c tcs)) :
    (should_continue s = some "compress_research" ↔ tcs = []) ∧
    (should_continue s = some "tool_node" ↔ tcs ≠ []) ∧
    (∀ (s2 : ResearcherState) (c2 : String) (tcs2 : List ToolCall),
      s2.researcher_messages.getLast? = some (.ai c2 tcs2) →
      (tcs = [] ↔ tcs2 = []) → should_continue s = should_continue s2) := by
  refine ⟨?_, ?_, ?_⟩
  · unfold should_continue
    rw [h]
    cases tcs <;> simp
  · unfold should_continue
    rw [h]
    cases tcs <;> simp
  · intro s2 c2 tcs2 h2 hiff
    unfold should_continue
    rw [h, h2]
    cases tcs <;> cases tcs2 <;> simp_all

theorem C1_witness :
    should_continue ⟨[Message.ai "final answer" []], 0, "topic", "", [], ""⟩ =
      some "compress_research" := by
  have h := C1_should_continue_routing
    ⟨[Message.ai "final answer" []], 0, "topic", "", [], ""⟩ "final answer" [] (by rfl)
  exact h.1.mpr rfl

/-- C9: the model input built by the assessment step is a function of the
compressed research text only: states agreeing on `compressed_research` get
identical QA model input, whatever their conversations; and that input is a
single human turn. -/
theorem C9_assess_input_only_compressed (pm : PromptManager)
    (s1 s2 : ResearcherState)
    (h : s1.compressed_research = s2.compressed_research) :
    assessInput pm s1 = assessInput pm s2 ∧
    (∀ msgs, assessInput pm s1 = .ok msgs → ∃ content, msgs = [Message.human content]) := by
  constructor
  · unfold assessInput
    rw [h]
  · intro msgs hmsgs
    unfold assessInput at hmsgs
    cases hg : getPrompt pm "geologic_qa_prompt_user" (some "v1.0.0") with
    | error e => rw [hg] at hmsgs; simp [Bind.bind, Except.bind] at hmsgs
    | ok t =>
      rw [hg] at hmsgs
      simp only [Bind.bind, Except.bind] at hmsgs
      cases hr : t.render [("research_report", s1.compressed_research)] with
      | error e => rw [hr] at hmsgs; simp at hmsgs
      | ok content =>
        rw [hr] at hmsgs
        simp [Pure.pure, Except.pure] at hmsgs
        exact ⟨content, hmsgs.symm⟩

theorem C9_witness :
    assessInput storeAgent ⟨[Message.human "q", Message.ai "A" []], 5, "t", "R", [], ""⟩ =
      assessInput storeAgent ⟨[], 0, "other", "R", ["x"], "y"⟩ := by
  exact (C9_assess_input_only_compressed storeAgent
    ⟨[Message.human "q", Message.ai "A" []], 5, "t", "R", [], ""⟩
    ⟨[], 0, "other", "R", ["x"], "y"⟩ rfl).1

/-- C4: whenever the manifest declares a (non-empty) latest version for a
name, resolving with `None`, with the sentinel "latest", and with the
declared latest version string all return the same result (the same
template, or the same failure). -/
theorem C4_latest_resolution_equivalence (pm : PromptManager) (name v : String)
    (hm : manifestLatest pm name = some v) (hv : v ≠ "") :
    getPrompt pm name none = getPrompt pm name (some "latest") ∧
    getPrompt pm name (some v) = getPrompt pm name none := by
  have hfalsy : pyFalsy (some v) = false := by
    simp only [pyFalsy, Bool.eq_false_iff, ne_eq, String.isEmpty_iff]
    exact hv
  constructor
  · unfold getPrompt
    cases hc : pm.cache.lookup name with
    | none => rfl
    | some m => simp
  · unfold getPrompt
    cases hc : pm.cache.lookup name with
    | none => rfl
    | some m =>
      by_cases hlat : v = "latest"
      · subst hlat
        simp
      · simp [hm, hfalsy, hlat]

theorem C4_witness :
    getPrompt storeEx "greeting" none = getPrompt storeEx "greeting" (some "latest") ∧
    getPrompt storeEx "greeting" (some "v2") = getPrompt storeEx "greeting" none := by
  exact C4_latest_resolution_equivalence storeEx "greeting" "v2" (by decide) (by decide)

/-- C10: when the manifest declares a (non-empty) latest version for a known
name but no template with that version string was loaded, resolving with
`None` fails with the version-not-found error instead of falling back to the
lexicographically greatest loaded version. -/
theorem C10_no_fallback_when_declared_latest_missing (pm : PromptManager)
    (name v : String) (versionsMap : List (String × PromptTemplate))
    (hc : pm.cache.lookup name = some versionsMap)
    (hm : manifestLatest pm name = some v) (hv : v ≠ "")
    (hmiss : versionsMap.lookup v = none) :
    getPrompt pm name none = .error (.versionNotFound v name) := by
  have hfalsy : pyFalsy (some v) = false := by
    simp only [pyFalsy, Bool.eq_false_iff, ne_eq, String.isEmpty_iff]
    exact hv
  unfold getPrompt
  rw [hc]
  simp [hm, hfalsy, hmiss]

theorem C10_witness :
    getPrompt storeMissingLatest "greeting" none =
      .error (.versionNotFound "v3" "greeting") := by
  exact C10_no_fallback_when_declared_latest_missing storeMissingLatest "greeting" "v3"
    [("v1", tmplGreetV1)] (by decide) (by decide) (by decide) (by decide)

/-- C8: for every loaded store, `get_prompt` fails with the prompt-not-found
error on an unknown name (for any requested version), and with the
version-not-found error on a known name and an explicit version string
(other than the "latest" sentinel) for which no template was loaded;
`list_versions` and `get_changelog` fail with the prompt-not-found error on
an unknown name. -/
theorem C8_notfound_errors (pm : PromptManager) :
    (∀ name version, pm.cache.lookup name = none →
      getPrompt pm name version = .error (.promptNotFound name)) ∧
    (∀ name v versionsMap, pm.cache.lookup name = some versionsMap →
      v ≠ "latest" → versionsMap.lookup v = none →
      getPrompt pm name (some v) = .error (.versionNotFound v name)) ∧
    (∀ name, pm.cache.lookup name = none →
      listVersions pm name = .error (.promptNotFound name)) ∧
    (∀ name, pm.cache.lookup name = none →
      getChangelog pm name = .error (.promptNotFound name)) := by
  refine ⟨?_, ?_, ?_, ?_⟩
  · intro name version h
    unfold getPrompt
    rw [h]
  · intro name v versionsMap hc hlat hmiss
    unfold getPrompt
    rw [hc]
    simp [hlat, hmiss]
  · intro name h
    unfold listVersions
    rw [h]
  · intro name h
    unfold getChangelog
    rw [h]

theorem C8_witness :
    getPrompt storeEx "nonexistent" none = .error (.promptNotFound "nonexistent") ∧
    getPrompt storeEx "greeting" (some "v9") = .error (.versionNotFound "v9" "greeting") ∧
    listVersions storeEx "nonexistent" = .error (.promptNotFound "nonexistent") ∧
    getChangelog storeEx "nonexistent" = .error (.promptNotFound "nonexistent") := by
  obtain ⟨h1, h2, h3, h4⟩ := C8_notfound_errors storeEx
  exact ⟨h1 "nonexistent" none (by decide),
         h2 "greeting" "v9" [("v1", tmplGreetV1), ("v2", tmplGreetV2)]
           (by decide) (by decide) (by decide),
         h3 "nonexistent" (by decide), h4 "nonexistent" (by decide)⟩

theorem sorted_getLastD (l : List String) (hs : l.Sorted (· ≤ ·)) (hne : l ≠ [])
    (d : String) : l.getLastD d ∈ l ∧ ∀ x ∈ l, x ≤ l.getLastD d := by
  induction l generalizing d with
  | nil => exact absurd rfl hne
  | cons a t ih =>
    rw [List.getLastD_cons]
    obtain ⟨ha, hst⟩ := List.sorted_cons.mp hs
    cases t with
    | nil =>
      refine ⟨by simp [List.getLastD_nil], ?_⟩
      intro x hx
      rw [List.mem_singleton] at hx
      simp [hx, List.getLastD_nil]
    | cons b u =>
      obtain ⟨hmem, hmax⟩ := ih hst (by simp) a
      refine ⟨List.mem_cons_of_mem a hmem, ?_⟩
      intro x hx
      rcases List.mem_cons.mp hx with hxa | hxt
      · exact hxa ▸ ha _ hmem
      · exact hmax x hxt

/-- C5: when the manifest declares no latest version for a known prompt name
with a non-empty set of loaded versions, resolving with `None` returns a
loaded template whose version string is lexicographically greatest among the
loaded versions for that name. -/
theorem C5_fallback_lex_greatest (pm : PromptManager) (name : String)
    (versionsMap : List (String × PromptTemplate))
    (hc : pm.cache.lookup name = some versionsMap)
    (hm : manifestLatest pm name = none)
    (hne : versionsMap ≠ []) :
    ∃ v t, versionsMap.lookup v = some t ∧
      v ∈ versionsMap.map Prod.fst ∧
      (∀ w ∈ versionsMap.map Prod.fst, w ≤ v) ∧
      getPrompt pm name none = .ok t := by
  have hvne : versionsMap.map Prod.fst ≠ [] := by
    simpa using hne
  have hsorted : (pySorted (versionsMap.map Prod.fst)).Sorted (· ≤ ·) :=
    List.sorted_insertionSort (· ≤ ·) (versionsMap.map Prod.fst)
  have hperm : (pySorted (versionsMap.map Prod.fst)).Perm (versionsMap.map Prod.fst) :=
    List.perm_insertionSort (· ≤ ·) (versionsMap.map Prod.fst)
  have hsne : pySorted (versionsMap.map Prod.fst) ≠ [] := by
    intro h0
    apply hvne
    have hp2 := hperm.symm
    rw [h0] at hp2
    exact hp2.eq_nil
  obtain ⟨hmem0, hmax0⟩ := sorted_getLastD (pySorted (versionsMap.map Prod.fst)) hsorted hsne ""
  have hmem : (pySorted (versionsMap.map Prod.fst)).getLastD "" ∈ versionsMap.map Prod.fst :=
    hperm.subset hmem0
  have hmax : ∀ w ∈ versionsMap.map Prod.fst,
      w ≤ (pySorted (versionsMap.map Prod.fst)).getLastD "" :=
    fun w hw => hmax0 w (hperm.symm.subset hw)
  have hlook : (versionsMap.lookup ((pySorted (versionsMap.map Prod.fst)).getLastD "")).isSome := by
    rw [List.lookup_isSome_iff]
    obtain ⟨p, hp, hfst⟩ := List.mem_map.mp hmem
    exact ⟨p, hp, by simp [hfst]⟩
  obtain ⟨t, ht⟩ := Option.isSome_iff_exists.mp hlook
  refine ⟨_, t, ht, hmem, hmax, ?_⟩
  unfold getPrompt
  rw [hc]
  have hlistE : (versionsMap.map Prod.fst).isEmpty = false :=
    List.isEmpty_eq_false.mpr hvne
  have ht2 : versionsMap.lookup ((pySorted (versionsMap.map Prod.fst)).getLast?.getD "")
      = some t := by
    rw [← List.getLastD_eq_getLast?]
    exact ht
  simp [hm, pyFalsy, hlistE, ht2]

theorem C5_witness :
    ∃ v t,
      ([("v1", tmplGreetV1), ("v2", tmplGreetV2)] : List (String × PromptTemplate)).lookup v
        = some t ∧
      v ∈ ([("v1", tmplGreetV1), ("v2", tmplGreetV2)]
            : List (String × PromptTemplate)).map Prod.fst ∧
      (∀ w ∈ ([("v1", tmplGreetV1), ("v2", tmplGreetV2)]
            : List (String × PromptTemplate)).map Prod.fst, w ≤ v) ∧
      getPrompt storeNoLatest "greeting" none = .ok t := by
  exact C5_fallback_lex_greatest storeNoLatest "greeting"
    [("v1", tmplGreetV1), ("v2", tmplGreetV2)] (by decide) (by decide) (by decide)

theorem mapM_option_pointwise {α β : Type} (f : α → Option β) :
    ∀ (l : List α), (∀ x ∈ l, (f x).isSome) →
      ∃ ys, l.mapM f = some ys ∧ ys.length = l.length ∧
        ∀ (i : Nat) (hi : i < l.length) (hy : i < ys.length),
          f (l.get ⟨i, hi⟩) = some (ys.get ⟨i, hy⟩) := by
  intro l
  induction l with
  | nil =>
    intro _
    exact ⟨[], rfl, by simp, by intro i hi hy; simp at hi⟩
  | cons x xs ih =>
    intro hall
    obtain ⟨y, hy⟩ := Option.isSome_iff_exists.mp (hall x (List.mem_cons_self x xs))
    obtain ⟨ys, hmap, hlen, hidx⟩ := ih (fun a ha => hall a (List.mem_cons_of_mem x ha))
    refine ⟨y :: ys, ?_, by simp [hlen], ?_⟩
    · rw [List.mapM_cons, hy, hmap]
      rfl
    · intro i hi hylen
      cases i with
      | zero => simpa using hy
      | succ j =>
        have hj : j < xs.length := by simpa using hi
        have hjy : j < ys.length := by simpa using hylen
        simpa using hidx j hj hjy

/-- C2: for every assistant turn carrying k pending tool-call requests with
registered tool names, one tool-execution step produces exactly k
tool-result turns, in the same relative order as the requests, the i-th
carrying the tool name and the request identifier of the i-th request. -/
theorem C2_tool_node_order (toolsByName : List (String × (String → String)))
    (s : ResearcherState) (c : String) (tcs : List ToolCall)
    (h : s.researcher_messages.getLast? = some (.ai c tcs))
    (hreg : ∀ tc ∈ tcs, (toolsByName.lookup tc.name).isSome) :
    ∃ outs, tool_node toolsByName s = some outs ∧
      outs.length = tcs.length ∧
      ∀ (i : Nat) (hi : i < tcs.length) (ho : i < outs.length),
        ∃ obs, outs.get ⟨i, ho⟩ =
          Message.tool obs (tcs.get ⟨i, hi⟩).name (tcs.get ⟨i, hi⟩).id := by
  obtain ⟨obsList, hmap, hlen, hidx⟩ := mapM_option_pointwise
    (fun tc => (toolsByName.lookup tc.name).map (fun f => f tc.args)) tcs
    (fun tc htc => by simpa using hreg tc htc)
  refine ⟨(obsList.zip tcs).map (fun p => .tool p.1 p.2.name p.2.id), ?_, ?_, ?_⟩
  · unfold tool_node
    rw [h]
    simp only [hmap]
  · simp [hlen]
  · intro i hi ho
    have hio : i < obsList.length := by omega
    have hiz : i < (obsList.zip tcs).length := by simp; omega
    refine ⟨obsList.get ⟨i, hio⟩, ?_⟩
    simp [List.get_eq_getElem, List.getElem_map, List.getElem_zip]

theorem C2_witness :
    ∃ outs, tool_node toolRegistryEx stateToolsEx = some outs ∧
      outs.length = 2 ∧
      ∀ (i : Nat) (hi : i < ([⟨"tavily_search", "solar", "id1"⟩, ⟨"think_tool", "hmm", "id2"⟩]
          : List ToolCall).length) (ho : i < outs.length),
        ∃ obs, outs.get ⟨i, ho⟩ =
          Message.tool obs
            (([⟨"tavily_search", "solar", "id1"⟩, ⟨"think_tool", "hmm", "id2"⟩]
              : List ToolCall).get ⟨i, hi⟩).name
            (([⟨"tavily_search", "solar", "id1"⟩, ⟨"think_tool", "hmm", "id2"⟩]
              : List ToolCall).get ⟨i, hi⟩).id := by
  exact C2_tool_node_order toolRegistryEx stateToolsEx "let me search"
    [⟨"tavily_search", "solar", "id1"⟩, ⟨"think_tool", "hmm", "id2"⟩]
    (by rfl) (by decide)

theorem intercalate_go_append (s : String) :
    ∀ (l : List String) (x y : String),
      String.intercalate.go (x ++ y) s l = x ++ String.intercalate.go y s l := by
  intro l
  induction l with
  | nil => intro x y; rfl
  | cons a t ih =>
    intro x y
    show String.intercalate.go (x ++ y ++ s ++ a) s t
        = x ++ String.intercalate.go (y ++ s ++ a) s t
    have hassoc : x ++ y ++ s ++ a = x ++ (y ++ s ++ a) := by
      simp [String.append_assoc]
    rw [hassoc]
    exact ih x (y ++ s ++ a)

theorem intercalate_cons_cons (s a b : String) (l : List String) :
    String.intercalate s (a :: b :: l) = a ++ s ++ String.intercalate s (b :: l) := by
  show String.intercalate.go (a ++ s ++ b) s l = a ++ s ++ String.intercalate.go b s l
  exact intercalate_go_append s l (a ++ s) b

theorem isEvidenceTurn_eq_contains (m : Message) :
    (["tool", "ai"] : List String).contains m.msgType = isEvidenceTurn m := by
  cases m <;> rfl

theorem intercalate_filter_rawNotes :
    ∀ msgs : List Message,
      String.intercalate "\n" ((msgs.filter isEvidenceTurn).map Message.content)
        = rawNotesSpec msgs := by
  intro msgs
  induction msgs with
  | nil => rfl
  | cons m ms ih =>
    cases hev : isEvidenceTurn m with
    | false =>
      rw [rawNotesSpec, if_neg (by simp [hev])]
      rw [List.filter_cons, if_neg (by simp [hev])]
      exact ih
    | true =>
      rw [rawNotesSpec, if_pos (by simp [hev])]
      rw [List.filter_cons, if_pos (by simp [hev])]
      cases hany : ms.any isEvidenceTurn with
      | false =>
        have hnil : ms.filter isEvidenceTurn = [] :=
          List.filter_eq_nil_iff.mpr (List.any_eq_false.mp hany)
        rw [hnil]
        rfl
      | true =>
        have hnonnil : ms.filter isEvidenceTurn ≠ [] := by
          obtain ⟨x, hx, hpx⟩ := List.any_eq_true.mp hany
          intro h0
          exact (List.filter_eq_nil_iff.mp h0) x hx hpx
        cases hfl : ms.filter isEvidenceTurn with
        | nil => exact absurd hfl hnonnil
        | cons r rs =>
          rw [List.map_cons, List.map_cons, intercalate_cons_cons]
          rw [← List.map_cons, ← hfl, ih]
          simp

/-- C6: whenever the compression step succeeds, it stores as the raw-notes
field a one-element list whose sole element is the concatenation, joined by
single newlines, of the textual content of every assistant-role and
tool-result-role turn of the conversation, in their original order. -/
theorem C6_raw_notes_aggregation (pm : PromptManager) (today : String)
    (compressModel : List Message → String) (state : ResearcherState)
    (out : String × List String)
    (h : compress_research pm today compressModel state = .ok out) :
    out.2 = [rawNotesSpec state.researcher_messages] := by
  unfold compress_research at h
  simp only [Bind.bind, Except.bind, Pure.pure, Except.pure] at h
  split at h
  · simp at h
  split at h
  · simp at h
  split at h
  · simp at h
  split at h
  · simp at h
  cases h
  have hfeq : filter_messages state.researcher_messages ["tool", "ai"]
      = state.researcher_messages.filter isEvidenceTurn :=
    List.filter_congr (fun m _ => isEvidenceTurn_eq_contains m)
  simp only [hfeq]
  rw [intercalate_filter_rawNotes]

theorem C6_witness :
    compress_research storeAgent "2025-05-01" (fun _ => "SUMMARY") stateABEx
      = .ok ("SUMMARY", ["A\nT1\nB"]) ∧
    (("SUMMARY", ["A\nT1\nB"]) : String × List String).2
      = [rawNotesSpec stateABEx.researcher_messages] := by
  constructor
  · rfl
  · exact C6_raw_notes_aggregation storeAgent "2025-05-01" (fun _ => "SUMMARY") stateABEx
      ("SUMMARY", ["A\nT1\nB"]) (by rfl)

theorem scan_correspondence (vars : List (String × String)) :
    ∀ (l : List Char) (m : ScanMode) (ps : List String),
      scanPlaceholders m l = some ps →
      ((∀ p ∈ ps, (vars.lookup p).isSome) → ∃ out, scanFormat vars m l = .ok out) ∧
      (∀ p, ps.find? (fun q => (vars.lookup q).isNone) = some p →
        scanFormat vars m l = .error (.keyError p)) := by
  intro l
  induction l with
  | nil =>
    intro m ps hp
    cases m with
    | literal =>
      simp only [scanPlaceholders, Option.some.injEq] at hp
      subst hp
      exact ⟨fun _ => ⟨[], rfl⟩, fun p hf => by simp at hf⟩
    | field acc => simp [scanPlaceholders] at hp
    | closing => simp [scanPlaceholders] at hp
  | cons c rest ih =>
    intro m ps hp
    cases m with
    | literal =>
      by_cases hco : c = braceOpen
      · rw [scanPlaceholders, if_pos hco] at hp
        have := ih (.field []) ps hp
        rw [scanFormat, if_pos hco]
        exact this
      · by_cases hcc : c = braceClose
        · rw [scanPlaceholders, if_neg hco, if_pos hcc] at hp
          have := ih .closing ps hp
          rw [scanFormat, if_neg hco, if_pos hcc]
          exact this
        · rw [scanPlaceholders, if_neg hco, if_neg hcc] at hp
          obtain ⟨ihok, iherr⟩ := ih .literal ps hp
          rw [scanFormat, if_neg hco, if_neg hcc]
          constructor
          · intro hall
            obtain ⟨out, hout⟩ := ihok hall
            exact ⟨c :: out, by rw [hout]; rfl⟩
          · intro p hf
            rw [iherr p hf]
            rfl
    | field acc =>
      by_cases hco : c = braceOpen
      · by_cases hacc : acc = []
        · rw [scanPlaceholders, if_pos hco, if_pos hacc] at hp
          obtain ⟨ihok, iherr⟩ := ih .literal ps hp
          rw [scanFormat, if_pos hco, if_pos hacc]
          constructor
          · intro hall
            obtain ⟨out, hout⟩ := ihok hall
            exact ⟨braceOpen :: out, by rw [hout]; rfl⟩
          · intro p hf
            rw [iherr p hf]
            rfl
        · rw [scanPlaceholders, if_pos hco, if_neg hacc] at hp
          simp at hp
      · by_cases hcc : c = braceClose
        · rw [scanPlaceholders, if_neg hco, if_pos hcc] at hp
          rw [Option.map_eq_some] at hp
          obtain ⟨ps2, hps2, hcons⟩ := hp
          obtain ⟨ihok, iherr⟩ := ih .literal ps2 hps2
          rw [scanFormat, if_neg hco, if_pos hcc]
          cases hlk : vars.lookup (String.mk acc.reverse) with
          | none =>
            constructor
            · intro hall
              have hmem : String.mk acc.reverse ∈ ps := by
                rw [← hcons]
                exact List.mem_cons_self _ _
              have := hall _ hmem
              rw [hlk] at this
              simp at this
            · intro p hf
              rw [← hcons] at hf
              rw [List.find?_cons_of_pos _ (by simp [hlk])] at hf
              cases hf
              rfl
          | some v =>
            constructor
            · intro hall
              have hall2 : ∀ p ∈ ps2, (vars.lookup p).isSome := by
                intro p hmem
                exact hall p (by rw [← hcons]; exact List.mem_cons_of_mem _ hmem)
              obtain ⟨out, hout⟩ := ihok hall2
              exact ⟨v.data ++ out, by rw [hout]; rfl⟩
            · intro p hf
              rw [← hcons] at hf
              rw [List.find?_cons_of_neg _ (by simp [hlk])] at hf
              rw [iherr p hf]
              rfl
        · rw [scanPlaceholders, if_neg hco, if_neg hcc] at hp
          have := ih (.field (c :: acc)) ps hp
          rw [scanFormat, if_neg hco, if_neg hcc]
          exact this
    | closing =>
      by_cases hcc : c = braceClose
      · rw [scanPlaceholders, if_pos hcc] at hp
        obtain ⟨ihok, iherr⟩ := ih .literal ps hp
        rw [scanFormat, if_pos hcc]
        constructor
        · intro hall
          obtain ⟨out, hout⟩ := ihok hall
          exact ⟨braceClose :: out, by rw [hout]; rfl⟩
        · intro p hf
          rw [iherr p hf]
          rfl
      · rw [scanPlaceholders, if_neg hcc] at hp
        simp at hp

/-- C7: for every template and variable mapping whose body scans to a
placeholder list, rendering succeeds (every named placeholder replaced by
its supplied value) when all placeholders have values, and fails with the
missing-variable `KeyError` naming an unsupplied placeholder when any
placeholder lacks a value — an unresolved placeholder is never silently
blanked or passed through. -/
theorem C7_render_missing_variable (t : PromptTemplate)
    (vars : List (String × String)) (ps : List String)
    (hp : placeholders t.template = some ps) :
    ((∀ p ∈ ps, (vars.lookup p).isSome) → ∃ out, t.render vars = .ok out) ∧
    ((∃ p ∈ ps, vars.lookup p = none) →
      ∃ p, p ∈ ps ∧ vars.lookup p = none ∧ t.render vars = .error (.keyError p)) := by
  obtain ⟨hok, herr⟩ := scan_correspondence vars t.template.data .literal ps hp
  constructor
  · intro hall
    obtain ⟨out, hout⟩ := hok hall
    refine ⟨String.mk out, ?_⟩
    unfold PromptTemplate.render pyFormat formatChars
    rw [hout]
    rfl
  · intro hex
    have hfs : (ps.find? (fun q => (vars.lookup q).isNone)).isSome := by
      rw [List.find?_isSome]
      obtain ⟨p, hmem, hnone⟩ := hex
      exact ⟨p, hmem, by simp [hnone]⟩
    obtain ⟨p, hf⟩ := Option.isSome_iff_exists.mp hfs
    refine ⟨p, List.mem_of_find?_eq_some hf, ?_, ?_⟩
    · have := List.find?_some hf
      simpa [Option.isNone_iff_eq_none] using this
    · unfold PromptTemplate.render pyFormat formatChars
      rw [herr p hf]
      rfl

theorem C7_witness :
    placeholders tmplGreetV2.template = some ["name"] ∧
    tmplGreetV2.render [("name", "Ada")] = .ok "Hello Ada, welcome" ∧
    (∃ out, tmplGreetV2.render [("name", "Ada")] = .ok out) ∧
    (∃ p, p ∈ ["name"] ∧ ([] : List (String × String)).lookup p = none ∧
      tmplGreetV2.render [] = .error (.keyError p)) := by
  refine ⟨by rfl, by rfl, ?_, ?_⟩
  · exact (C7_render_missing_variable tmplGreetV2 [("name", "Ada")] ["name"] (by rfl)).1
      (by decide)
  · exact (C7_render_missing_variable tmplGreetV2 [] ["name"] (by rfl)).2
      (by decide)

theorem wordBytes_lt (w : Nat) : ∀ v ∈ wordBytes w, v < 256 := by
  intro v hv
  simp only [wordBytes, List.mem_cons, List.not_mem_nil, or_false] at hv
  rcases hv with rfl | rfl | rfl | rfl <;> exact Nat.mod_lt _ (by omega)

theorem sha256_lt (msg : List Nat) : ∀ v ∈ sha256 msg, v < 256 := by
  intro v hv
  unfold sha256 at hv
  rw [List.mem_flatMap] at hv
  obtain ⟨w, _, hvw⟩ := hv
  exact wordBytes_lt w v hvw

theorem sha256_length (msg : List Nat) : (sha256 msg).length = 32 := by
  unfold sha256
  simp [wordBytes]

theorem byteDigits_lt (bytes : List Nat) (hb : ∀ v ∈ bytes, v < 256) :
    ∀ d ∈ byteDigits bytes, d < 16 := by
  intro d hd
  unfold byteDigits at hd
  rw [List.mem_flatMap] at hd
  obtain ⟨v, hv, hdv⟩ := hd
  have := hb v hv
  simp only [List.mem_cons, List.not_mem_nil, or_false] at hdv
  rcases hdv with rfl | rfl <;> omega

theorem byteDigits_length (bytes : List Nat) :
    (byteDigits bytes).length = 2 * bytes.length := by
  induction bytes with
  | nil => rfl
  | cons v vs ih =>
    simp only [byteDigits, List.flatMap_cons, List.length_append, List.length_cons,
      List.length_nil] at *
    omega

theorem valLE_lt : ∀ l : List Nat, (∀ d ∈ l, d < 16) → valLE l < 16 ^ l.length := by
  intro l
  induction l with
  | nil => intro _; simp [valLE]
  | cons d ds ih =>
    intro hall
    have hd := hall d (List.mem_cons_self d ds)
    have hds := ih (fun x hx => hall x (List.mem_cons_of_mem d hx))
    simp only [valLE, List.length_cons, pow_succ]
    omega

theorem valLE_inj :
    ∀ l1 l2 : List Nat, l1.length = l2.length → (∀ d ∈ l1, d < 16) →
      (∀ d ∈ l2, d < 16) → valLE l1 = valLE l2 → l1 = l2 := by
  intro l1
  induction l1 with
  | nil =>
    intro l2 hlen _ _ _
    cases l2 with
    | nil => rfl
    | cons e es => simp at hlen
  | cons d ds ih =>
    intro l2 hlen h1 h2 hval
    cases l2 with
    | nil => simp at hlen
    | cons e es =>
      simp only [valLE] at hval
      have hd := h1 d (List.mem_cons_self d ds)
      have he := h2 e (List.mem_cons_self e es)
      have hde : d = e := by omega
      have hvt : valLE ds = valLE es := by omega
      have ht := ih es (by simpa using hlen)
        (fun x hx => h1 x (List.mem_cons_of_mem d hx))
        (fun x hx => h2 x (List.mem_cons_of_mem e hx)) hvt
      rw [hde, ht]

theorem hexdigest_eq (bytes : List Nat) :
    hexdigest bytes = String.mk ((byteDigits bytes).map hexChar) := by
  unfold hexdigest byteDigits
  rw [List.map_flatMap]
  simp

theorem contentFingerprint_eq (b : String) :
    contentFingerprint b
      = String.mk (((byteDigits (sha256 (utf8Encode b))).take 12).map hexChar) := by
  unfold contentFingerprint
  rw [hexdigest_eq, String.take_eq]
  simp [List.map_take]

theorem C3_counterexample :
    ¬ (∀ b1 b2 : String, b1 ≠ b2 → contentFingerprint b1 ≠ contentFingerprint b2) := by
  intro hinj
  have hlen : ∀ b : String,
      ((byteDigits (sha256 (utf8Encode b))).take 12).length = 12 := by
    intro b
    rw [List.length_take, byteDigits_length, sha256_length]
    omega
  have hdlt : ∀ b : String,
      ∀ d ∈ (byteDigits (sha256 (utf8Encode b))).take 12, d < 16 := by
    intro b d hd
    exact byteDigits_lt _ (sha256_lt _) d (List.mem_of_mem_take hd)
  have hg : ∀ b : String,
      valLE ((byteDigits (sha256 (utf8Encode b))).take 12) < 16 ^ 12 := by
    intro b
    have hlt := valLE_lt _ (hdlt b)
    rw [hlen b] at hlt
    exact hlt
  obtain ⟨x, y, hxy, hgeq⟩ := Finite.exists_ne_map_eq_of_infinite
    (fun b : String => (⟨valLE ((byteDigits (sha256 (utf8Encode b))).take 12), hg b⟩
      : Fin (16 ^ 12)))
  simp only [Fin.mk.injEq] at hgeq
  have hdig : (byteDigits (sha256 (utf8Encode x))).take 12
      = (byteDigits (sha256 (utf8Encode y))).take 12 :=
    valLE_inj _ _ (by rw [hlen x, hlen y]) (hdlt x) (hdlt y) hgeq
  apply hinj x y hxy
  rw [contentFingerprint_eq, contentFingerprint_eq, hdig]

/-- C3 (amended): the content fingerprint is a deterministic pure function
of the body text — templates loaded with equal (stripped) bodies receive
equal fingerprints whatever their names, versions or metadata, and
recomputing the fingerprint of a body yields the same value.  (The original
claim additionally asserted that distinct bodies always produce distinct
fingerprints; that is false for a digest truncated to 12 hex characters —
see the counterexample.) -/
theorem C3_fingerprint_deterministic :
    (∀ (n1 v1 n2 v2 : String) (m1 m2 : PromptMeta) (raw1 raw2 fp1 fp2 : String),
      (loadPromptFile n1 v1 m1 raw1 fp1).template
        = (loadPromptFile n2 v2 m2 raw2 fp2).template →
      (loadPromptFile n1 v1 m1 raw1 fp1).content_hash
        = (loadPromptFile n2 v2 m2 raw2 fp2).content_hash) ∧
    (∀ b : String, contentFingerprint b = contentFingerprint b) := by
  constructor
  · intro n1 v1 n2 v2 m1 m2 raw1 raw2 fp1 fp2 h
    simp only [loadPromptFile] at h ⊢
    exact congrArg contentFingerprint h
  · intro b
    rfl

theorem C3_witness :
    (loadPromptFile "greeting" "v1" ⟨some "ada", none, none, none, none⟩
        "Shared body" "p1.md").template
      = (loadPromptFile "other" "v9" ⟨none, some "2024", some "x", some ["t"], none⟩
        "Shared body" "p2.md").template ∧
    (loadPromptFile "greeting" "v1" ⟨some "ada", none, none, none, none⟩
        "Shared body" "p1.md").content_hash
      = (loadPromptFile "other" "v9" ⟨none, some "2024", some "x", some ["t"], none⟩
        "Shared body" "p2.md").content_hash := by
  refine ⟨by rfl, ?_⟩
  exact C3_fingerprint_deterministic.1 "greeting" "v1" "other" "v9"
    ⟨some "ada", none, none, none, none⟩ ⟨none, some "2024", some "x", some ["t"], none⟩
    "Shared body" "Shared body" "p1.md" "p2.md" (by rfl)

end DeepResearch
